import Mathlib

/-!
Shallow embedding of the panlz grid layout engine and pointer interaction
logic, translated from the PanelManager revision in src/unnamed/part_000
(the revision whose overlap policy and fixed row height the specification
adopts).  World-space quantities (JS floating-point numbers) are modelled
as rationals; grid fields (JS numbers holding integers) as Int.

The JS Array.prototype.sort with the comparator
(a, b) => a.gridY - b.gridY then a.gridX - b.gridX is a stable ascending
sort; it is modelled by a stable insertion sort, which agrees with every
stable sort for this key.  JS Math.round rounds half toward positive
infinity and is modelled by jsRound.
-/

structure GridConfig where
  unitsX : Int
  cellWidth : ℚ
  spacing : ℚ
deriving DecidableEq, Repr

structure Panel where
  id : Nat
  gridX : Int
  gridY : Int
  widthUnits : Int
deriving DecidableEq, Repr

/-- Defensive clamp applied to every panel at the start of a layout pass
(see buildLogicalGrid in the source): widthUnits into [1, unitsX], then
gridX into [0, unitsX - widthUnits], then gridY to be nonnegative. -/
def clampPanel (cfg : GridConfig) (p : Panel) : Panel :=
  { id := p.id,
    widthUnits := max 1 (min p.widthUnits cfg.unitsX),
    gridX := max 0 (min p.gridX (cfg.unitsX - max 1 (min p.widthUnits cfg.unitsX))),
    gridY := max 0 p.gridY }

/-- The (gridY, column) cells a panel occupies, in the occupancy grid. -/
def cellsOf (p : Panel) : List (Int × Int) :=
  (List.range p.widthUnits.toNat).map (fun i => (p.gridY, p.gridX + (i : Int)))

/-- Comparator order of the layout sort: ascending (gridY, gridX). -/
def keyLe (a b : Panel) : Prop :=
  a.gridY < b.gridY ∨ (a.gridY = b.gridY ∧ a.gridX ≤ b.gridX)

instance decKeyLe (a b : Panel) : Decidable (keyLe a b) := by
  unfold keyLe
  infer_instance

/-- Insert a panel after every already-present panel whose key is not
greater, so that repeated insertion is a stable sort. -/
def insertSorted (p : Panel) : List Panel → List Panel
  | [] => [p]
  | q :: t => if keyLe q p then q :: insertSorted p t else p :: q :: t

/-- Stable ascending sort by (gridY, gridX): the model of the JS sort in
buildLogicalGrid. -/
def sortPanels (ps : List Panel) : List Panel :=
  ps.foldl (fun acc p => insertSorted p acc) []

structure BuildState where
  occupied : List (Int × Int)
  placed : List Panel
  diags : List Nat
  rowCount : Nat
deriving DecidableEq, Repr

/-- One iteration of the placement loop of buildLogicalGrid: clamp the
panel, extend the grid to its row, then place it unless one of its cells
is already owned, in which case a diagnostic naming the panel is emitted
and the panel is skipped for this pass. -/
def buildStep (cfg : GridConfig) (st : BuildState) (p : Panel) : BuildState :=
  let q := clampPanel cfg p
  let rc := max st.rowCount (q.gridY.toNat + 1)
  if ∃ c ∈ cellsOf q, c ∈ st.occupied then
    { st with rowCount := rc, diags := st.diags ++ [q.id] }
  else
    { st with
      rowCount := rc
      occupied := st.occupied ++ cellsOf q
      placed := st.placed ++ [q] }

def buildGo (cfg : GridConfig) : BuildState → List Panel → BuildState
  | st, [] => st
  | st, p :: t => buildGo cfg (buildStep cfg st p) t

def initBuildState : BuildState := { occupied := [], placed := [], diags := [], rowCount := 0 }

/-- The occupancy-grid construction of a layout pass, processing panels in
stable (gridY, gridX) order. -/
def buildLogicalGrid (cfg : GridConfig) (ps : List Panel) : BuildState :=
  buildGo cfg initBuildState (sortPanels ps)

/-- The layout pass mutates every panel in the manager list in place by the
defensive clamp; this is the panel list after the pass. -/
def updatedPanels (cfg : GridConfig) (ps : List Panel) : List Panel :=
  ps.map (clampPanel cfg)

def totalGridWidth (cfg : GridConfig) : ℚ :=
  (cfg.unitsX : ℚ) * cfg.cellWidth + ((max 0 (cfg.unitsX - 1) : Int) : ℚ) * cfg.spacing

def layoutOriginX (cfg : GridConfig) : ℚ := -(totalGridWidth cfg) / 2

def totalGridHeight (cfg : GridConfig) (rowCount : Nat) : ℚ :=
  (rowCount : ℚ) * cfg.cellWidth + ((rowCount - 1 : Nat) : ℚ) * cfg.spacing

def layoutOriginY (cfg : GridConfig) (rowCount : Nat) : ℚ :=
  totalGridHeight cfg rowCount / 2

/-- World-space rectangle emitted for a panel: (x, y) is the center of the
panel mesh, width and height its world extents. -/
structure Rect where
  x : ℚ
  y : ℚ
  width : ℚ
  height : ℚ
deriving DecidableEq, Repr

/-- The rectangle updateLayout emits for a placed panel: fixed row height
equal to the cell width, x from the panel gridX plus half the panel width,
y from the row position minus half the row height. -/
def panelRect (cfg : GridConfig) (oX oY : ℚ) (q : Panel) : Rect :=
  { x := oX + (q.gridX : ℚ) * (cfg.cellWidth + cfg.spacing)
         + ((q.widthUnits : ℚ) * cfg.cellWidth
            + ((max 0 (q.widthUnits - 1) : Int) : ℚ) * cfg.spacing) / 2,
    y := oY - (q.gridY : ℚ) * (cfg.cellWidth + cfg.spacing) - cfg.cellWidth / 2,
    width := (q.widthUnits : ℚ) * cfg.cellWidth
             + ((max 0 (q.widthUnits - 1) : Int) : ℚ) * cfg.spacing,
    height := cfg.cellWidth }

structure LayoutResult where
  panels : List Panel
  rects : List (Panel × Rect)
  rowCount : Nat
  originX : ℚ
  originY : ℚ
  diags : List Nat
deriving DecidableEq, Repr

/-- One full layout pass (updateLayout in the source): set the grid origin,
build the occupancy grid, and emit one rectangle per placed panel in
row-major (gridY, gridX) order. -/
def updateLayout (cfg : GridConfig) (ps : List Panel) : LayoutResult :=
  let b := buildLogicalGrid cfg ps
  let oX := layoutOriginX cfg
  let oY := layoutOriginY cfg b.rowCount
  { panels := updatedPanels cfg ps,
    rects := (sortPanels b.placed).map (fun q => (q, panelRect cfg oX oY q)),
    rowCount := b.rowCount,
    originX := oX,
    originY := oY,
    diags := b.diags }

/-- JS Math.round: round half toward positive infinity. -/
def jsRound (x : ℚ) : Int := Int.floor (x + 1 / 2)

/-- Inverse world-to-grid mapping (getGridSlotFromPosition in the source):
round for the column, floor for the row, both clamped nonnegative. -/
def getGridSlotFromPosition (cfg : GridConfig) (oX oY : ℚ) (pos : ℚ × ℚ) : Int × Int :=
  (max 0 (jsRound ((pos.1 - oX) / (cfg.cellWidth + cfg.spacing))),
   max 0 (Int.floor ((oY - pos.2) / (cfg.cellWidth + cfg.spacing))))

/-- Pointer displacement in world units converted to whole grid units
during a resize gesture. -/
def resizeDeltaUnits (cfg : GridConfig) (deltaX : ℚ) : Int :=
  jsRound (deltaX / (cfg.cellWidth + cfg.spacing))

/-- The resize commit of onPointerMove: compute the tentative new width and
gridX from the gesture-start values, then clamp width into [1, unitsX],
gridX to be nonnegative, width again against the right grid edge, and
width again to be at least 1.  Returns (widthUnits, gridX). -/
def applyResize (cfg : GridConfig) (isLeft : Bool) (initW initX deltaUnits : Int) : Int × Int :=
  let nW0 := if isLeft then initW - deltaUnits else initW + deltaUnits
  let nX0 := if isLeft then initX + deltaUnits else initX
  let nW1 := max 1 (min nW0 cfg.unitsX)
  let nX1 := max 0 nX0
  let nW2 := min nW1 (cfg.unitsX - nX1)
  let nW3 := max 1 nW2
  (nW3, nX1)

/-- A panel together with its transient visual target position, the only
state a drag gesture updates before release. -/
structure VisualPanel where
  logical : Panel
  target : ℚ × ℚ
deriving DecidableEq, Repr

/-- The dragging branch of onPointerMove: only the dragged panel's visual
target position moves; no logical field changes and no layout pass runs
(the second component counts layout passes triggered). -/
def dragMove (draggedId : Nat) (pointer dragOffset : ℚ × ℚ) (ps : List VisualPanel) :
    List VisualPanel × Nat :=
  (ps.map fun v =>
    if v.logical.id = draggedId then
      { v with target := (pointer.1 - dragOffset.1, pointer.2 - dragOffset.2) }
    else v, 0)

/-- The dragging branch of onPointerUp: convert the dragged panel's visual
target through the inverse grid mapping, clamp, commit to its logical
fields, and trigger exactly one layout pass. -/
def dragRelease (cfg : GridConfig) (oX oY : ℚ) (draggedId : Nat) (ps : List VisualPanel) :
    List VisualPanel × Nat :=
  (ps.map fun v =>
    if v.logical.id = draggedId then
      let slot := getGridSlotFromPosition cfg oX oY v.target
      { v with logical := { v.logical with
          gridX := max 0 (min slot.1 (cfg.unitsX - v.logical.widthUnits)),
          gridY := max 0 slot.2 } }
    else v, 1)

/-- The manager state relevant to panel bookkeeping: the panel list, the
id-keyed lookup map and the next fresh id. -/
structure Manager where
  panels : List Panel
  panelMap : List (Nat × Panel)
  nextPanelId : Nat
deriving DecidableEq, Repr

def lookupPanel (m : Manager) (pid : Nat) : Option Panel :=
  (m.panelMap.find? (fun e => e.1 == pid)).map (fun e => e.2)

/-- removePanel: if the id resolves, dispose and remove the panel and run a
layout pass (second component true); otherwise do nothing at all. -/
def removePanel (m : Manager) (pid : Nat) : Manager × Bool :=
  match lookupPanel m pid with
  | none => (m, false)
  | some p =>
    ({ panels := m.panels.filter (fun q => q.id != p.id),
       panelMap := m.panelMap.filter (fun e => e.1 != pid),
       nextPanelId := m.nextPanelId }, true)

/-- Disjointness of two occupancy cell lists. -/
def cellsDisjoint (a b : List (Int × Int)) : Prop := ∀ c ∈ a, c ∉ b

instance decCellsDisjoint (a b : List (Int × Int)) : Decidable (cellsDisjoint a b) := by
  unfold cellsDisjoint
  infer_instance

/-- Grid configuration of the end-to-end scenarios of the specification. -/
def cfg6 : GridConfig := { unitsX := 6, cellWidth := 2, spacing := 1 / 5 }

/-! Helper lemmas about the clamp, the stable sort and the placement fold. -/

theorem clampPanel_id (cfg : GridConfig) (p : Panel) : (clampPanel cfg p).id = p.id := rfl

theorem clampPanel_gridX_nonneg (cfg : GridConfig) (p : Panel) :
    0 ≤ (clampPanel cfg p).gridX := by
  simp [clampPanel]

theorem clampPanel_gridY_nonneg (cfg : GridConfig) (p : Panel) :
    0 ≤ (clampPanel cfg p).gridY := by
  simp [clampPanel]

theorem clampPanel_width_pos (cfg : GridConfig) (p : Panel) :
    1 ≤ (clampPanel cfg p).widthUnits := by
  simp [clampPanel]

theorem clampPanel_bounds (cfg : GridConfig) (p : Panel) (h : 1 ≤ cfg.unitsX) :
    0 ≤ (clampPanel cfg p).gridX ∧ 1 ≤ (clampPanel cfg p).widthUnits ∧
    (clampPanel cfg p).widthUnits ≤ cfg.unitsX ∧
    (clampPanel cfg p).gridX + (clampPanel cfg p).widthUnits ≤ cfg.unitsX := by
  simp only [clampPanel]
  omega

theorem clampPanel_idem (cfg : GridConfig) (p : Panel) :
    clampPanel cfg (clampPanel cfg p) = clampPanel cfg p := by
  simp only [clampPanel, Panel.mk.injEq, true_and]
  omega

theorem insertSorted_perm (p : Panel) (l : List Panel) :
    (insertSorted p l).Perm (p :: l) := by
  induction l with
  | nil => exact List.Perm.refl _
  | cons q t ih =>
    simp only [insertSorted]
    split
    · exact ((ih.cons q).trans (List.Perm.swap p q t))
    · exact List.Perm.refl _

theorem sortPanels_aux_perm (ps : List Panel) :
    ∀ acc : List Panel, (ps.foldl (fun a p => insertSorted p a) acc).Perm (acc ++ ps) := by
  induction ps with
  | nil => intro acc; simp
  | cons p t ih =>
    intro acc
    simp only [List.foldl_cons]
    refine (ih (insertSorted p acc)).trans ?_
    refine (List.Perm.append_right t (insertSorted_perm p acc)).trans ?_
    exact (List.perm_middle).symm

theorem sortPanels_perm (ps : List Panel) : (sortPanels ps).Perm ps := by
  simpa using sortPanels_aux_perm ps []

theorem buildStep_placed_mono (cfg : GridConfig) (st : BuildState) (p : Panel) :
    ∀ x ∈ st.placed, x ∈ (buildStep cfg st p).placed := by
  intro x hx
  simp only [buildStep]
  split <;> simp [hx]

theorem buildStep_diags_mono (cfg : GridConfig) (st : BuildState) (p : Panel) :
    ∀ x ∈ st.diags, x ∈ (buildStep cfg st p).diags := by
  intro x hx
  simp only [buildStep]
  split <;> simp [hx]

theorem buildGo_placed_mono (cfg : GridConfig) :
    ∀ (l : List Panel) (st : BuildState), ∀ x ∈ st.placed, x ∈ (buildGo cfg st l).placed := by
  intro l
  induction l with
  | nil => intro st x hx; exact hx
  | cons p t ih =>
    intro st x hx
    exact ih (buildStep cfg st p) x (buildStep_placed_mono cfg st p x hx)

theorem buildGo_diags_mono (cfg : GridConfig) :
    ∀ (l : List Panel) (st : BuildState), ∀ x ∈ st.diags, x ∈ (buildGo cfg st l).diags := by
  intro l
  induction l with
  | nil => intro st x hx; exact hx
  | cons p t ih =>
    intro st x hx
    exact ih (buildStep cfg st p) x (buildStep_diags_mono cfg st p x hx)

theorem buildGo_placed_clamped (cfg : GridConfig) :
    ∀ (l : List Panel) (st : BuildState), ∀ q ∈ (buildGo cfg st l).placed,
      q ∈ st.placed ∨ ∃ p, q = clampPanel cfg p := by
  intro l
  induction l with
  | nil => intro st q hq; exact Or.inl hq
  | cons p t ih =>
    intro st q hq
    rcases ih (buildStep cfg st p) q hq with h | h
    · simp only [buildStep] at h
      split at h
      · exact Or.inl h
      · simp only [List.mem_append, List.mem_singleton] at h
        rcases h with h | h
        · exact Or.inl h
        · exact Or.inr ⟨p, h⟩
    · exact Or.inr h

theorem buildGo_no_overlap (cfg : GridConfig) :
    ∀ (l : List Panel) (st : BuildState),
      List.Pairwise (fun a b => cellsDisjoint (cellsOf a) (cellsOf b)) st.placed →
      (∀ q ∈ st.placed, ∀ c ∈ cellsOf q, c ∈ st.occupied) →
      List.Pairwise (fun a b => cellsDisjoint (cellsOf a) (cellsOf b))
        (buildGo cfg st l).placed := by
  intro l
  induction l with
  | nil => intro st h1 _; exact h1
  | cons p t ih =>
    intro st h1 h2
    by_cases hc : ∃ c ∈ cellsOf (clampPanel cfg p), c ∈ st.occupied
    · refine ih (buildStep cfg st p) ?_ ?_
      · simp only [buildStep, if_pos hc]
        exact h1
      · simp only [buildStep, if_pos hc]
        exact h2
    · refine ih (buildStep cfg st p) ?_ ?_
      · simp only [buildStep, if_neg hc]
        rw [List.pairwise_append]
        refine ⟨h1, List.pairwise_singleton _ _, ?_⟩
        intro a ha b hb
        simp only [List.mem_singleton] at hb
        subst hb
        intro c hca hcb
        exact hc ⟨c, hcb, h2 a ha c hca⟩
      · simp only [buildStep, if_neg hc]
        intro q hq c hc2
        simp only [List.mem_append, List.mem_singleton] at hq
        rcases hq with hq | hq
        · exact List.mem_append_left _ (h2 q hq c hc2)
        · subst hq
          exact List.mem_append_right _ hc2

theorem buildGo_placed_or_diag (cfg : GridConfig) :
    ∀ (l : List Panel) (st : BuildState), ∀ p ∈ l,
      p.id ∈ (buildGo cfg st l).placed.map Panel.id ∨ p.id ∈ (buildGo cfg st l).diags := by
  intro l
  induction l with
  | nil => intro st p hp; cases hp
  | cons h t ih =>
    intro st p hp
    rcases List.mem_cons.mp hp with rfl | hp
    · by_cases hc : ∃ c ∈ cellsOf (clampPanel cfg p), c ∈ st.occupied
      · right
        refine buildGo_diags_mono cfg t (buildStep cfg st p) p.id ?_
        simp [buildStep, if_pos hc, clampPanel_id]
      · left
        have hmem : clampPanel cfg p ∈ (buildStep cfg st p).placed := by
          simp [buildStep, if_neg hc]
        have := buildGo_placed_mono cfg t (buildStep cfg st p) _ hmem
        exact List.mem_map.mpr ⟨clampPanel cfg p, this, clampPanel_id cfg p⟩
    · exact ih (buildStep cfg st h) p hp

theorem buildGo_regain (cfg : GridConfig) (p : Panel) :
    ∀ (l : List Panel) (st : BuildState), p ∈ l → (l.map Panel.id).Nodup →
      (∀ q ∈ l, q.id ≠ p.id →
        cellsDisjoint (cellsOf (clampPanel cfg q)) (cellsOf (clampPanel cfg p))) →
      (∀ c ∈ st.occupied, c ∉ cellsOf (clampPanel cfg p)) →
      p.id ∈ (buildGo cfg st l).placed.map Panel.id := by
  intro l
  induction l with
  | nil => intro st hp; cases hp
  | cons h t ih =>
    intro st hp hnd hdisj hocc
    by_cases hid : h.id = p.id
    · have hhp : h = p := by
        rcases List.mem_cons.mp hp with rfl | hp2
        · rfl
        · exfalso
          simp only [List.map_cons, List.nodup_cons] at hnd
          exact hnd.1 (hid ▸ List.mem_map.mpr ⟨p, hp2, rfl⟩)
      subst hhp
      have hc : ¬∃ c ∈ cellsOf (clampPanel cfg h), c ∈ st.occupied := by
        rintro ⟨c, hc1, hc2⟩
        exact hocc c hc2 hc1
      have hmem : clampPanel cfg h ∈ (buildStep cfg st h).placed := by
        simp [buildStep, if_neg hc]
      have := buildGo_placed_mono cfg t (buildStep cfg st h) _ hmem
      exact List.mem_map.mpr ⟨clampPanel cfg h, this, clampPanel_id cfg h⟩
    · have hp2 : p ∈ t := by
        rcases List.mem_cons.mp hp with rfl | hp2
        · exact absurd rfl hid
        · exact hp2
      refine ih (buildStep cfg st h) hp2 ?_ ?_ ?_
      · simp only [List.map_cons, List.nodup_cons] at hnd
        exact hnd.2
      · intro q hq hqid
        exact hdisj q (List.mem_cons_of_mem h hq) hqid
      · intro c hcmem
        by_cases hc : ∃ c0 ∈ cellsOf (clampPanel cfg h), c0 ∈ st.occupied
        · simp only [buildStep, if_pos hc] at hcmem
          exact hocc c hcmem
        · simp only [buildStep, if_neg hc, List.mem_append] at hcmem
          rcases hcmem with hcmem | hcmem
          · exact hocc c hcmem
          · exact fun hcp =>
              hdisj h (List.mem_cons_self h t) hid c hcmem hcp

theorem placed_clamped (cfg : GridConfig) (ps : List Panel) (q : Panel)
    (h : q ∈ (buildLogicalGrid cfg ps).placed) : ∃ p, q = clampPanel cfg p := by
  rcases buildGo_placed_clamped cfg (sortPanels ps) initBuildState q h with h2 | h2
  · cases h2
  · exact h2

theorem mem_rects (cfg : GridConfig) (ps : List Panel) (q : Panel) (r : Rect)
    (h : (q, r) ∈ (updateLayout cfg ps).rects) :
    q ∈ (buildLogicalGrid cfg ps).placed ∧
    r = panelRect cfg (layoutOriginX cfg)
        (layoutOriginY cfg (buildLogicalGrid cfg ps).rowCount) q := by
  simp only [updateLayout, List.mem_map, Prod.mk.injEq] at h
  obtain ⟨q', hq', hqq, hr⟩ := h
  subst hqq
  exact ⟨(sortPanels_perm _).mem_iff.mp hq', hr.symm⟩

theorem updateLayout_originX (cfg : GridConfig) (ps : List Panel) :
    (updateLayout cfg ps).originX = layoutOriginX cfg := rfl

theorem updateLayout_originY (cfg : GridConfig) (ps : List Panel) :
    (updateLayout cfg ps).originY = layoutOriginY cfg (buildLogicalGrid cfg ps).rowCount := rfl

theorem updateLayout_panels (cfg : GridConfig) (ps : List Panel) :
    (updateLayout cfg ps).panels = updatedPanels cfg ps := rfl

/-- Round-trip arithmetic core: the inverse mapping applied to the center
of the rectangle of a one-unit-wide panel with nonnegative grid fields
returns its grid slot, for positive cell width and strictly positive
spacing. -/
theorem roundtrip_core (cfg : GridConfig) (oX oY : ℚ) (q : Panel)
    (hcw : 0 < cfg.cellWidth) (hsp : 0 < cfg.spacing)
    (hgx : 0 ≤ q.gridX) (hgy : 0 ≤ q.gridY) (hw : q.widthUnits = 1) :
    getGridSlotFromPosition cfg oX oY ((panelRect cfg oX oY q).x, (panelRect cfg oX oY q).y)
      = (q.gridX, q.gridY) := by
  have hs : (0 : ℚ) < cfg.cellWidth + cfg.spacing := by linarith
  have hsne : cfg.cellWidth + cfg.spacing ≠ 0 := ne_of_gt hs
  have hfrac0 : (0 : ℚ) ≤ cfg.cellWidth / (2 * (cfg.cellWidth + cfg.spacing)) := by positivity
  have hfrac1 : cfg.cellWidth / (2 * (cfg.cellWidth + cfg.spacing)) < 1 / 2 := by
    rw [div_lt_div_iff₀ (by linarith) (by norm_num)]
    linarith
  have hwidth : (q.widthUnits : ℚ) * cfg.cellWidth
      + ((max 0 (q.widthUnits - 1) : Int) : ℚ) * cfg.spacing = cfg.cellWidth := by
    rw [hw]
    norm_num
  have hxval : (panelRect cfg oX oY q).x
      = oX + (q.gridX : ℚ) * (cfg.cellWidth + cfg.spacing) + cfg.cellWidth / 2 := by
    simp only [panelRect, hwidth]
  have hyval : (panelRect cfg oX oY q).y
      = oY - (q.gridY : ℚ) * (cfg.cellWidth + cfg.spacing) - cfg.cellWidth / 2 := rfl
  have hratx : ((panelRect cfg oX oY q).x - oX) / (cfg.cellWidth + cfg.spacing)
      = (q.gridX : ℚ) + cfg.cellWidth / (2 * (cfg.cellWidth + cfg.spacing)) := by
    rw [hxval]
    field_simp
    ring
  have hraty : (oY - (panelRect cfg oX oY q).y) / (cfg.cellWidth + cfg.spacing)
      = (q.gridY : ℚ) + cfg.cellWidth / (2 * (cfg.cellWidth + cfg.spacing)) := by
    rw [hyval]
    field_simp
    ring
  have hroundx : jsRound ((q.gridX : ℚ) + cfg.cellWidth / (2 * (cfg.cellWidth + cfg.spacing)))
      = q.gridX := by
    unfold jsRound
    rw [add_assoc, Int.floor_int_add]
    have : ⌊cfg.cellWidth / (2 * (cfg.cellWidth + cfg.spacing)) + 1 / 2⌋ = 0 :=
      Int.floor_eq_zero_iff.mpr ⟨by linarith, by linarith⟩
    rw [this, add_zero]
  have hfloory : ⌊(q.gridY : ℚ) + cfg.cellWidth / (2 * (cfg.cellWidth + cfg.spacing))⌋
      = q.gridY := by
    rw [Int.floor_int_add]
    have : ⌊cfg.cellWidth / (2 * (cfg.cellWidth + cfg.spacing))⌋ = 0 :=
      Int.floor_eq_zero_iff.mpr ⟨hfrac0, by linarith⟩
    rw [this, add_zero]
  unfold getGridSlotFromPosition
  rw [hratx, hraty, hroundx, hfloory, max_eq_right hgx, max_eq_right hgy]

/-! Claim theorems. -/

/-- Claim C3 (confirmed): in every layout pass, the (gridY, column) cell
lists of the placed panels are pairwise disjoint: no occupancy-grid cell is
owned by two panels at once. -/
theorem claim_c3_no_overlap_in_output (cfg : GridConfig) (ps : List Panel) :
    List.Pairwise (fun a b => cellsDisjoint (cellsOf a) (cellsOf b))
      (buildLogicalGrid cfg ps).placed := by
  refine buildGo_no_overlap cfg (sortPanels ps) initBuildState List.Pairwise.nil ?_
  intro q hq
  cases hq

/-- Claim C5 (confirmed): after a layout pass, every panel in the manager
panel set satisfies the containment bounds, whatever its prior field
values, provided the grid has at least one column. -/
theorem claim_c5_containment (cfg : GridConfig) (ps : List Panel) (p : Panel)
    (hu : 1 ≤ cfg.unitsX) (hp : p ∈ (updateLayout cfg ps).panels) :
    0 ≤ p.gridX ∧ 1 ≤ p.widthUnits ∧ p.widthUnits ≤ cfg.unitsX ∧
    p.gridX + p.widthUnits ≤ cfg.unitsX := by
  rw [updateLayout_panels] at hp
  simp only [updatedPanels, List.mem_map] at hp
  obtain ⟨q, _, rfl⟩ := hp
  exact clampPanel_bounds cfg q hu

/-- Witness for claim C5 at a panel whose prior fields violate every
bound. -/
theorem claim_c5_containment_witness :
    (1 ≤ cfg6.unitsX ∧
      ({ id := 0, gridX := 0, gridY := 0, widthUnits := 6 } : Panel)
        ∈ (updateLayout cfg6 [{ id := 0, gridX := 9, gridY := -3, widthUnits := 22 }]).panels) ∧
    (0 ≤ ({ id := 0, gridX := 0, gridY := 0, widthUnits := 6 } : Panel).gridX ∧
      1 ≤ ({ id := 0, gridX := 0, gridY := 0, widthUnits := 6 } : Panel).widthUnits ∧
      ({ id := 0, gridX := 0, gridY := 0, widthUnits := 6 } : Panel).widthUnits ≤ cfg6.unitsX ∧
      ({ id := 0, gridX := 0, gridY := 0, widthUnits := 6 } : Panel).gridX
        + ({ id := 0, gridX := 0, gridY := 0, widthUnits := 6 } : Panel).widthUnits ≤ cfg6.unitsX) :=
  ⟨⟨by decide, by decide⟩,
    claim_c5_containment cfg6 [{ id := 0, gridX := 9, gridY := -3, widthUnits := 22 }]
      { id := 0, gridX := 0, gridY := 0, widthUnits := 6 } (by decide) (by decide)⟩

/-- Claim C6 (confirmed): every emitted rectangle has height equal to the
grid cell nominal size, so any two rows have equal heights. -/
theorem claim_c6_fixed_row_height (cfg : GridConfig) (ps : List Panel) :
    (∀ q r, (q, r) ∈ (updateLayout cfg ps).rects → r.height = cfg.cellWidth) ∧
    (∀ q r q2 r2, (q, r) ∈ (updateLayout cfg ps).rects →
      (q2, r2) ∈ (updateLayout cfg ps).rects → r.height = r2.height) := by
  have h1 : ∀ q r, (q, r) ∈ (updateLayout cfg ps).rects → r.height = cfg.cellWidth := by
    intro q r h
    rw [(mem_rects cfg ps q r h).2]
    rfl
  exact ⟨h1, fun q r q2 r2 h h2 => by rw [h1 q r h, h1 q2 r2 h2]⟩

def psC6 : List Panel :=
  [{ id := 0, gridX := 0, gridY := 0, widthUnits := 3 },
   { id := 1, gridX := 0, gridY := 1, widthUnits := 6 }]

/-- Witness for claim C6: a three-unit panel in row 0 and a full-width
panel in row 1 receive rectangles of the same height. -/
theorem claim_c6_fixed_row_height_witness :
    (({ id := 0, gridX := 0, gridY := 0, widthUnits := 3 } : Panel),
      ({ x := -33/10, y := 11/10, width := 32/5, height := 2 } : Rect))
        ∈ (updateLayout cfg6 psC6).rects ∧
    (({ id := 1, gridX := 0, gridY := 1, widthUnits := 6 } : Panel),
      ({ x := 0, y := -11/10, width := 13, height := 2 } : Rect))
        ∈ (updateLayout cfg6 psC6).rects ∧
    ({ x := -33/10, y := 11/10, width := 32/5, height := 2 } : Rect).height
      = ({ x := 0, y := -11/10, width := 13, height := 2 } : Rect).height := by
  have hb : buildLogicalGrid cfg6 psC6
      = { occupied := [(0,0),(0,1),(0,2),(1,0),(1,1),(1,2),(1,3),(1,4),(1,5)],
          placed := [{ id := 0, gridX := 0, gridY := 0, widthUnits := 3 },
                     { id := 1, gridX := 0, gridY := 1, widthUnits := 6 }],
          diags := [], rowCount := 2 } := by decide
  have hr : (updateLayout cfg6 psC6).rects
      = [({ id := 0, gridX := 0, gridY := 0, widthUnits := 3 },
          { x := -33/10, y := 11/10, width := 32/5, height := 2 }),
         ({ id := 1, gridX := 0, gridY := 1, widthUnits := 6 },
          { x := 0, y := -11/10, width := 13, height := 2 })] := by
    simp only [updateLayout, hb]
    norm_num [sortPanels, insertSorted, keyLe, panelRect, layoutOriginX, layoutOriginY,
      totalGridWidth, totalGridHeight, cfg6]
  have hm1 : (({ id := 0, gridX := 0, gridY := 0, widthUnits := 3 } : Panel),
      ({ x := -33/10, y := 11/10, width := 32/5, height := 2 } : Rect))
        ∈ (updateLayout cfg6 psC6).rects := by
    rw [hr]
    exact List.mem_cons_self _ _
  have hm2 : (({ id := 1, gridX := 0, gridY := 1, widthUnits := 6 } : Panel),
      ({ x := 0, y := -11/10, width := 13, height := 2 } : Rect))
        ∈ (updateLayout cfg6 psC6).rects := by
    rw [hr]
    exact List.mem_cons_of_mem _ (List.mem_cons_self _ _)
  exact ⟨hm1, hm2, (claim_c6_fixed_row_height cfg6 psC6).2 _ _ _ _ hm1 hm2⟩

/-- Claim C7 (confirmed): every emitted rectangle satisfies the width and
x formulas of the layout contract, and end-to-end scenario A with grid
unitsX 6, cellWidth 2, spacing 1/5 and one full-width panel yields exactly
one rectangle of world width 13 centered at the grid origin. -/
theorem claim_c7_rect_formula :
    (∀ (cfg : GridConfig) (ps : List Panel) (q : Panel) (r : Rect),
      (q, r) ∈ (updateLayout cfg ps).rects →
        r.width = (q.widthUnits : ℚ) * cfg.cellWidth
          + ((q.widthUnits : ℚ) - 1) * cfg.spacing ∧
        r.x = (updateLayout cfg ps).originX
          + (q.gridX : ℚ) * (cfg.cellWidth + cfg.spacing) + r.width / 2) ∧
    (updateLayout cfg6 [{ id := 0, gridX := 0, gridY := 0, widthUnits := 6 }]).rects
      = [({ id := 0, gridX := 0, gridY := 0, widthUnits := 6 },
          { x := 0, y := 0, width := 13, height := 2 })] := by
  constructor
  · intro cfg ps q r h
    obtain ⟨hq, hr⟩ := mem_rects cfg ps q r h
    obtain ⟨p, rfl⟩ := placed_clamped cfg ps q hq
    have hw1 : 1 ≤ (clampPanel cfg p).widthUnits := clampPanel_width_pos cfg p
    have hmax : (max 0 ((clampPanel cfg p).widthUnits - 1) : Int)
        = (clampPanel cfg p).widthUnits - 1 := by omega
    subst hr
    constructor
    · simp only [panelRect, hmax]
      push_cast
      ring
    · rfl
  · have hb : buildLogicalGrid cfg6 [{ id := 0, gridX := 0, gridY := 0, widthUnits := 6 }]
        = { occupied := [(0,0),(0,1),(0,2),(0,3),(0,4),(0,5)],
            placed := [{ id := 0, gridX := 0, gridY := 0, widthUnits := 6 }],
            diags := [], rowCount := 1 } := by decide
    simp only [updateLayout, hb]
    norm_num [sortPanels, insertSorted, panelRect, layoutOriginX, layoutOriginY,
      totalGridWidth, totalGridHeight, cfg6]

/-- Witness for claim C7 at scenario A: the single emitted rectangle obeys
the width and x formulas. -/
theorem claim_c7_rect_formula_witness :
    (({ id := 0, gridX := 0, gridY := 0, widthUnits := 6 } : Panel),
      ({ x := 0, y := 0, width := 13, height := 2 } : Rect))
        ∈ (updateLayout cfg6 [{ id := 0, gridX := 0, gridY := 0, widthUnits := 6 }]).rects ∧
    (({ x := 0, y := 0, width := 13, height := 2 } : Rect).width
        = (({ id := 0, gridX := 0, gridY := 0, widthUnits := 6 } : Panel).widthUnits : ℚ)
            * cfg6.cellWidth
          + ((({ id := 0, gridX := 0, gridY := 0, widthUnits := 6 } : Panel).widthUnits : ℚ) - 1)
            * cfg6.spacing ∧
      ({ x := 0, y := 0, width := 13, height := 2 } : Rect).x
        = (updateLayout cfg6 [{ id := 0, gridX := 0, gridY := 0, widthUnits := 6 }]).originX
          + (({ id := 0, gridX := 0, gridY := 0, widthUnits := 6 } : Panel).gridX : ℚ)
            * (cfg6.cellWidth + cfg6.spacing)
          + ({ x := 0, y := 0, width := 13, height := 2 } : Rect).width / 2) := by
  have hm : (({ id := 0, gridX := 0, gridY := 0, widthUnits := 6 } : Panel),
      ({ x := 0, y := 0, width := 13, height := 2 } : Rect))
        ∈ (updateLayout cfg6 [{ id := 0, gridX := 0, gridY := 0, widthUnits := 6 }]).rects := by
    rw [claim_c7_rect_formula.2]
    exact List.mem_cons_self _ _
  exact ⟨hm, claim_c7_rect_formula.1 cfg6 _ _ _ hm⟩

/-- Claim C1 (amended): for every placed panel of width one unit, with
positive cell width and strictly positive spacing, converting the center of
its emitted rectangle back through the inverse mapping returns exactly its
(gridX, gridY).  For wider panels the inverse mapping returns the cell under
the rectangle center, which differs from gridX. -/
theorem claim_c1_roundtrip_unit_width (cfg : GridConfig) (ps : List Panel)
    (q : Panel) (r : Rect)
    (hcw : 0 < cfg.cellWidth) (hsp : 0 < cfg.spacing)
    (hmem : (q, r) ∈ (updateLayout cfg ps).rects) (hw : q.widthUnits = 1) :
    getGridSlotFromPosition cfg (updateLayout cfg ps).originX
      (updateLayout cfg ps).originY (r.x, r.y) = (q.gridX, q.gridY) := by
  obtain ⟨hq, hr⟩ := mem_rects cfg ps q r hmem
  obtain ⟨p, hp⟩ := placed_clamped cfg ps q hq
  have hgx : 0 ≤ q.gridX := by
    rw [hp]
    exact clampPanel_gridX_nonneg cfg p
  have hgy : 0 ≤ q.gridY := by
    rw [hp]
    exact clampPanel_gridY_nonneg cfg p
  subst hr
  rw [updateLayout_originX, updateLayout_originY]
  exact roundtrip_core cfg _ _ q hcw hsp hgx hgy hw

/-- Witness for claim C1 at a one-unit panel in the last column of the
scenario grid. -/
theorem claim_c1_roundtrip_unit_width_witness :
    (0 < cfg6.cellWidth ∧ 0 < cfg6.spacing ∧
      (({ id := 0, gridX := 5, gridY := 0, widthUnits := 1 } : Panel),
        ({ x := 11/2, y := 0, width := 2, height := 2 } : Rect))
          ∈ (updateLayout cfg6 [{ id := 0, gridX := 5, gridY := 0, widthUnits := 1 }]).rects ∧
      ({ id := 0, gridX := 5, gridY := 0, widthUnits := 1 } : Panel).widthUnits = 1) ∧
    getGridSlotFromPosition cfg6
      (updateLayout cfg6 [{ id := 0, gridX := 5, gridY := 0, widthUnits := 1 }]).originX
      (updateLayout cfg6 [{ id := 0, gridX := 5, gridY := 0, widthUnits := 1 }]).originY
      (({ x := 11/2, y := 0, width := 2, height := 2 } : Rect).x,
       ({ x := 11/2, y := 0, width := 2, height := 2 } : Rect).y) = (5, 0) := by
  have hb : buildLogicalGrid cfg6 [{ id := 0, gridX := 5, gridY := 0, widthUnits := 1 }]
      = { occupied := [(0,5)],
          placed := [{ id := 0, gridX := 5, gridY := 0, widthUnits := 1 }],
          diags := [], rowCount := 1 } := by decide
  have hr : (updateLayout cfg6 [{ id := 0, gridX := 5, gridY := 0, widthUnits := 1 }]).rects
      = [({ id := 0, gridX := 5, gridY := 0, widthUnits := 1 },
          { x := 11/2, y := 0, width := 2, height := 2 })] := by
    simp only [updateLayout, hb]
    norm_num [sortPanels, insertSorted, panelRect, layoutOriginX, layoutOriginY,
      totalGridWidth, totalGridHeight, cfg6]
  have hm : (({ id := 0, gridX := 5, gridY := 0, widthUnits := 1 } : Panel),
      ({ x := 11/2, y := 0, width := 2, height := 2 } : Rect))
        ∈ (updateLayout cfg6 [{ id := 0, gridX := 5, gridY := 0, widthUnits := 1 }]).rects := by
    rw [hr]
    exact List.mem_cons_self _ _
  refine ⟨⟨by norm_num [cfg6], by norm_num [cfg6], hm, rfl⟩, ?_⟩
  exact claim_c1_roundtrip_unit_width cfg6 _ _ _
    (by norm_num [cfg6]) (by norm_num [cfg6]) hm rfl

/-- Claim C1 counterexample: in scenario A the single placed panel has
gridX 0 and gridY 0 and its rectangle is centered at the grid origin, yet
the inverse mapping applied to that center returns (3, 0), not (0, 0): the
round-trip fails for panels wider than one unit. -/
theorem claim_c1_counterexample :
    (updateLayout cfg6 [{ id := 0, gridX := 0, gridY := 0, widthUnits := 6 }]).rects
      = [({ id := 0, gridX := 0, gridY := 0, widthUnits := 6 },
          { x := 0, y := 0, width := 13, height := 2 })] ∧
    getGridSlotFromPosition cfg6
      (updateLayout cfg6 [{ id := 0, gridX := 0, gridY := 0, widthUnits := 6 }]).originX
      (updateLayout cfg6 [{ id := 0, gridX := 0, gridY := 0, widthUnits := 6 }]).originY
      (0, 0) = (3, 0) ∧
    ((3 : Int), (0 : Int)) ≠
      (({ id := 0, gridX := 0, gridY := 0, widthUnits := 6 } : Panel).gridX,
       ({ id := 0, gridX := 0, gridY := 0, widthUnits := 6 } : Panel).gridY) := by
  have hb : buildLogicalGrid cfg6 [{ id := 0, gridX := 0, gridY := 0, widthUnits := 6 }]
      = { occupied := [(0,0),(0,1),(0,2),(0,3),(0,4),(0,5)],
          placed := [{ id := 0, gridX := 0, gridY := 0, widthUnits := 6 }],
          diags := [], rowCount := 1 } := by decide
  refine ⟨?_, ?_, by decide⟩
  · simp only [updateLayout, hb]
    norm_num [sortPanels, insertSorted, panelRect, layoutOriginX, layoutOriginY,
      totalGridWidth, totalGridHeight, cfg6]
  · rw [updateLayout_originX, updateLayout_originY, hb]
    norm_num [getGridSlotFromPosition, jsRound, layoutOriginX, layoutOriginY,
      totalGridWidth, totalGridHeight, cfg6]

/-- Claim C2 (confirmed): a panel that conflicts in a layout pass is only
omitted from that pass: it stays in the manager panel set; every panel of
the pass is either placed or named in a diagnostic; and in any pass over a
panel set with distinct ids in which no cell the panel needs is claimed by
another panel, the panel is placed. -/
theorem claim_c2_overlap_policy (cfg : GridConfig) (ps : List Panel) (p : Panel)
    (hp : p ∈ ps) :
    p.id ∈ (updateLayout cfg ps).panels.map Panel.id ∧
    (p.id ∈ (buildLogicalGrid cfg ps).placed.map Panel.id ∨
      p.id ∈ (buildLogicalGrid cfg ps).diags) ∧
    (∀ ps2 : List Panel, p ∈ ps2 → (ps2.map Panel.id).Nodup →
      (∀ q ∈ ps2, q.id ≠ p.id →
        cellsDisjoint (cellsOf (clampPanel cfg q)) (cellsOf (clampPanel cfg p))) →
      p.id ∈ (buildLogicalGrid cfg ps2).placed.map Panel.id) := by
  refine ⟨?_, ?_, ?_⟩
  · rw [updateLayout_panels]
    simp only [updatedPanels, List.map_map]
    exact List.mem_map.mpr ⟨p, hp, clampPanel_id cfg p⟩
  · exact buildGo_placed_or_diag cfg (sortPanels ps) initBuildState p
      ((sortPanels_perm ps).mem_iff.mpr hp)
  · intro ps2 hp2 hnd hdisj
    refine buildGo_regain cfg p (sortPanels ps2) initBuildState
      ((sortPanels_perm ps2).mem_iff.mpr hp2) ?_ ?_ ?_
    · exact (((sortPanels_perm ps2).map Panel.id).nodup_iff).mpr hnd
    · intro q hq hqid
      exact hdisj q ((sortPanels_perm ps2).mem_iff.mp hq) hqid
    · intro c hc
      cases hc

def psC2 : List Panel :=
  [{ id := 0, gridX := 0, gridY := 0, widthUnits := 2 },
   { id := 1, gridX := 1, gridY := 0, widthUnits := 2 }]

def psC2resolved : List Panel :=
  [{ id := 0, gridX := 0, gridY := 1, widthUnits := 2 },
   { id := 1, gridX := 1, gridY := 0, widthUnits := 2 }]

/-- Witness for claim C2: panel 1 conflicts with panel 0 over cell (0, 1),
stays in the panel set, is named in a diagnostic, and is placed again in a
pass where panel 0 has moved to row 1. -/
theorem claim_c2_overlap_policy_witness :
    ({ id := 1, gridX := 1, gridY := 0, widthUnits := 2 } : Panel) ∈ psC2 ∧
    (1 ∈ (updateLayout cfg6 psC2).panels.map Panel.id ∧
      (1 ∈ (buildLogicalGrid cfg6 psC2).placed.map Panel.id ∨
        1 ∈ (buildLogicalGrid cfg6 psC2).diags) ∧
      1 ∈ (buildLogicalGrid cfg6 psC2resolved).placed.map Panel.id) ∧
    1 ∈ (buildLogicalGrid cfg6 psC2).diags ∧
    1 ∉ (buildLogicalGrid cfg6 psC2).placed.map Panel.id := by
  have h := claim_c2_overlap_policy cfg6 psC2
    { id := 1, gridX := 1, gridY := 0, widthUnits := 2 } (by decide)
  refine ⟨by decide, ⟨h.1, h.2.1, ?_⟩, by decide, by decide⟩
  exact h.2.2 psC2resolved (by decide) (by decide) (by decide)

/-- Claim C4 (amended): a whole-cell leftward drag of the left resize
handle by k cells commits widthUnits increased by exactly k and gridX
decreased by exactly k whenever k does not exceed the starting gridX and
the starting panel satisfies the containment bound; for any displacement
the committed gridX is never negative.  Outside that range the clamps can
make widthUnits grow by less than k. -/
theorem claim_c4_left_resize (cfg : GridConfig) (initW initX k : Int)
    (h1 : 1 ≤ initW) (h2 : 0 ≤ k) (h3 : k ≤ initX)
    (h4 : initW + initX ≤ cfg.unitsX) :
    applyResize cfg true initW initX (-k) = (initW + k, initX - k) ∧
    ∀ d : Int, 0 ≤ (applyResize cfg true initW initX d).2 := by
  constructor
  · simp only [applyResize, if_true, Prod.mk.injEq]
    omega
  · intro d
    simp only [applyResize]
    omega

/-- Witness for claim C4 at end-to-end scenario C: a one-cell leftward
drag from initialWidthUnits 3, initialGridX 3 commits (4, 2). -/
theorem claim_c4_left_resize_witness :
    ((1 : Int) ≤ 3 ∧ (0 : Int) ≤ 1 ∧ (1 : Int) ≤ 3 ∧ (3 : Int) + 3 ≤ cfg6.unitsX) ∧
    applyResize cfg6 true 3 3 (-1) = (4, 2) := by
  refine ⟨⟨by decide, by decide, by decide, by decide⟩, ?_⟩
  rw [(claim_c4_left_resize cfg6 3 3 1 (by decide) (by decide) (by decide) (by decide)).1]
  decide

/-- Claim C4 counterexample: from initialWidthUnits 5, initialGridX 1 a
two-cell leftward drag commits widthUnits 6, not 5 + 2 = 7: the clamp to
the grid width makes widthUnits grow by less than k. -/
theorem claim_c4_counterexample :
    applyResize cfg6 true 5 1 (-2) = (6, 0) ∧
    ((6 : Int), (0 : Int)) ≠ ((5 : Int) + 2, (1 : Int) - 2) := by
  exact ⟨by decide, by decide⟩

/-- Claim C8 (confirmed): during a drag, a pointer move changes no panel's
logical fields and triggers no layout pass, only the dragged panel's visual
target; on release the logical fields are committed once, with gridX in
[0, unitsX - widthUnits] (when widthUnits fits the grid) and gridY
nonnegative, every other panel unchanged, followed by exactly one layout
pass. -/
theorem claim_c8_drag_mutation (did : Nat) (pointer off : ℚ × ℚ)
    (cfg : GridConfig) (oX oY : ℚ) (ps : List VisualPanel) :
    (dragMove did pointer off ps).1.map VisualPanel.logical
      = ps.map VisualPanel.logical ∧
    (dragMove did pointer off ps).2 = 0 ∧
    (dragRelease cfg oX oY did ps).2 = 1 ∧
    (∀ v ∈ (dragMove did pointer off ps).1, v.logical.id ≠ did → v ∈ ps) ∧
    (∀ v ∈ (dragRelease cfg oX oY did ps).1, v.logical.id ≠ did → v ∈ ps) ∧
    (∀ v ∈ (dragRelease cfg oX oY did ps).1, v.logical.id = did →
      0 ≤ v.logical.gridX ∧ 0 ≤ v.logical.gridY ∧
      (v.logical.widthUnits ≤ cfg.unitsX →
        v.logical.gridX + v.logical.widthUnits ≤ cfg.unitsX)) := by
  refine ⟨?_, rfl, rfl, ?_, ?_, ?_⟩
  · simp only [dragMove, List.map_map]
    refine List.map_congr_left fun v _ => ?_
    by_cases h : v.logical.id = did <;> simp [h]
  · intro v hv hne
    simp only [dragMove, List.mem_map] at hv
    obtain ⟨w, hw, rfl⟩ := hv
    by_cases h : w.logical.id = did
    · rw [if_pos h] at hne ⊢
      exact absurd h hne
    · rw [if_neg h]
      exact hw
  · intro v hv hne
    simp only [dragRelease, List.mem_map] at hv
    obtain ⟨w, hw, rfl⟩ := hv
    by_cases h : w.logical.id = did
    · rw [if_pos h] at hne
      exact absurd h hne
    · rw [if_neg h]
      exact hw
  · intro v hv hvid
    simp only [dragRelease, List.mem_map] at hv
    obtain ⟨w, hw, rfl⟩ := hv
    by_cases h : w.logical.id = did
    · rw [if_pos h]
      dsimp only
      omega
    · rw [if_neg h] at hvid
      exact absurd hvid h

def psC8 : List VisualPanel :=
  [{ logical := { id := 0, gridX := 0, gridY := 0, widthUnits := 2 }, target := (0, 0) },
   { logical := { id := 1, gridX := 2, gridY := 0, widthUnits := 2 }, target := (0, 0) }]

/-- Witness for claim C8 at a two-panel state: a move while dragging panel
0 leaves all logical fields unchanged with zero layout passes, and the
release commits panel 0 within bounds with one layout pass. -/
theorem claim_c8_drag_mutation_witness :
    (dragMove 0 (1, 1) (0, 0) psC8).1.map VisualPanel.logical
      = psC8.map VisualPanel.logical ∧
    (dragMove 0 (1, 1) (0, 0) psC8).2 = 0 ∧
    (dragRelease cfg6 (-13/2) 1 0 psC8).2 = 1 ∧
    (({ logical := { id := 0, gridX := 3, gridY := 0, widthUnits := 2 },
        target := (0, 0) } : VisualPanel)
      ∈ (dragRelease cfg6 (-13/2) 1 0 psC8).1 →
      0 ≤ ({ id := 0, gridX := 3, gridY := 0, widthUnits := 2 } : Panel).gridX ∧
      0 ≤ ({ id := 0, gridX := 3, gridY := 0, widthUnits := 2 } : Panel).gridY ∧
      (({ id := 0, gridX := 3, gridY := 0, widthUnits := 2 } : Panel).widthUnits ≤ cfg6.unitsX →
        ({ id := 0, gridX := 3, gridY := 0, widthUnits := 2 } : Panel).gridX
          + ({ id := 0, gridX := 3, gridY := 0, widthUnits := 2 } : Panel).widthUnits
          ≤ cfg6.unitsX)) := by
  have h := claim_c8_drag_mutation 0 (1, 1) (0, 0) cfg6 (-13/2) 1 psC8
  exact ⟨h.1, h.2.1, h.2.2.1, fun hm => h.2.2.2.2.2 _ hm rfl⟩

/-- Claim C9 (amended): the layout pass is idempotent from the committed
state of a first pass onward: the defensive clamps are fixed points of a
second application, so a further pass leaves the panel fields unchanged
and produces identical rectangles.  The very first pass need not agree
with the second when the initial fields violate the grid bounds, because
clamping changes the (gridY, gridX) order used for conflict resolution. -/
theorem claim_c9_idempotent_after_first (cfg : GridConfig) (ps : List Panel) :
    updatedPanels cfg (updatedPanels cfg ps) = updatedPanels cfg ps ∧
    (updateLayout cfg (updatedPanels cfg (updatedPanels cfg ps))).rects
      = (updateLayout cfg (updatedPanels cfg ps)).rects := by
  have h : updatedPanels cfg (updatedPanels cfg ps) = updatedPanels cfg ps := by
    simp only [updatedPanels, List.map_map]
    refine List.map_congr_left fun p _ => ?_
    simp [Function.comp, clampPanel_idem]
  exact ⟨h, by rw [h]⟩

def psC9 : List Panel :=
  [{ id := 0, gridX := 5, gridY := 0, widthUnits := 1 },
   { id := 1, gridX := 6, gridY := 0, widthUnits := 3 }]

/-- Claim C9 counterexample: on this panel set the first layout pass
places panel 0 and drops panel 1, but the second pass, run on the state
the first pass committed with no mutation in between, places panel 1 and
drops panel 0: the two passes emit different rectangles. -/
theorem claim_c9_counterexample :
    (updateLayout cfg6 (updatedPanels cfg6 psC9)).rects
      ≠ (updateLayout cfg6 psC9).rects := by
  decide

/-- Claim C10 (confirmed): removing an id that does not resolve in the
manager map leaves the whole manager state unchanged and triggers no
layout pass. -/
theorem claim_c10_remove_absent (m : Manager) (pid : Nat)
    (h : lookupPanel m pid = none) : removePanel m pid = (m, false) := by
  simp [removePanel, h]

def mgrC10 : Manager :=
  { panels := [{ id := 0, gridX := 0, gridY := 0, widthUnits := 1 }],
    panelMap := [(0, { id := 0, gridX := 0, gridY := 0, widthUnits := 1 })],
    nextPanelId := 1 }

/-- Witness for claim C10: removing the absent id 5 from a one-panel
manager returns the manager unchanged with no layout pass. -/
theorem claim_c10_remove_absent_witness :
    lookupPanel mgrC10 5 = none ∧ removePanel mgrC10 5 = (mgrC10, false) :=
  ⟨by decide, claim_c10_remove_absent mgrC10 5 (by decide)⟩
